import Mathlib

/-!
# Verification of the crazy-7s synchronization core

A shallow embedding, in Lean 4, of the card/deck data model, the turn
state, the card codec, the effect resolver and the packet-receiving
state machine of the crazy-7s card game (Rust sources `src/card.rs`,
`src/deck.rs`, `src/info.rs`, `src/network.rs`,
`src/game_ui/board.rs`), together with theorems settling the frozen
specification claims.

Modelling conventions:
* Rust `u8`/`usize` values are `Nat`; the byte range is carried as a
  hypothesis where it matters.
* Fallible Rust paths (`panic!`, `unwrap`, `expect`, out-of-bounds
  indexing, `unreachable!`) are modelled with `Option` (`none` = the
  process panics).
* Peer identifiers (`PeerId`, 16 raw uuid bytes) are modelled as the
  list of their bytes.  Display-name strings are modelled as the list
  of the raw bytes the Rust code decodes them from.
* Presentation-layer side effects (sprite spawn/despawn events,
  animations) are omitted; the `Win` events emitted by the
  synchronization engine are kept, as an output list of winner ids.
-/

namespace CrazySevens

/-- Card color (`CardColor` in `src/card.rs`). -/
inductive CardColor
  | Red
  | Yellow
  | Green
  | Blue
  | Wild
  deriving DecidableEq, Repr

/-- Card value (`CardValue` in `src/card.rs`). -/
inductive CardValue
  | Zero
  | One
  | Two
  | Three
  | Four
  | Five
  | Six
  | Seven
  | Eight
  | Nine
  | Skip
  | Reverse
  | DrawTwo
  deriving DecidableEq, Repr

/-- Card struct (`Card` in `src/card.rs`): color, value, and an
iteration number differentiating physical duplicates. -/
structure Card where
  color : CardColor
  value : CardValue
  iteration : Nat
  deriving DecidableEq, Repr

/-- `impl Into<u8> for CardColor` in `src/card.rs`. -/
def CardColor.toByte : CardColor → Nat
  | .Red => 0
  | .Yellow => 1
  | .Green => 2
  | .Blue => 3
  | .Wild => 4

/-- `impl From<u8> for CardColor` in `src/card.rs`; the `panic!` arm
for bytes other than 0..=4 is `none`. -/
def CardColor.fromByte : Nat → Option CardColor
  | 0 => some .Red
  | 1 => some .Yellow
  | 2 => some .Green
  | 3 => some .Blue
  | 4 => some .Wild
  | _ => none

/-- `impl Into<u8> for Card` in `src/card.rs`: wild cards map to
`104 + iteration` (ignoring `value`), other cards to
`color*13 + value + (iteration-1)*52`. -/
def Card.toByte (c : Card) : Nat :=
  match c.color with
  | .Wild => 104 + c.iteration
  | color =>
    let value : Nat :=
      match c.value with
      | .Zero => 0
      | .One => 1
      | .Two => 2
      | .Three => 3
      | .Four => 4
      | .Five => 5
      | .Six => 6
      | .Seven => 7
      | .Eight => 8
      | .Nine => 9
      | .Skip => 10
      | .Reverse => 11
      | .DrawTwo => 12
    (color.toByte * 13 + value) + (c.iteration - 1) * 52

/-- `impl From<u8> for Card` in `src/card.rs`.  Bytes `>= 104` decode
to wild cards with iteration `b - 104`; otherwise the byte is split
into a 0..=51 value and an iteration, and the two `unreachable!` arms
of the source are `none`. -/
def Card.fromByte (b : Nat) : Option Card :=
  if 104 ≤ b then
    some ⟨CardColor.Wild, CardValue.Seven, b - 104⟩
  else
    let p : Nat × Nat := if b ≤ 51 then (b, 1) else (b - 52, 2)
    let color? : Option CardColor :=
      match p.1 / 13 with
      | 0 => some CardColor.Red
      | 1 => some CardColor.Yellow
      | 2 => some CardColor.Green
      | 3 => some CardColor.Blue
      | _ => none
    let value? : Option CardValue :=
      match p.1 % 13 with
      | 0 => some CardValue.Zero
      | 1 => some CardValue.One
      | 2 => some CardValue.Two
      | 3 => some CardValue.Three
      | 4 => some CardValue.Four
      | 5 => some CardValue.Five
      | 6 => some CardValue.Six
      | 7 => some CardValue.Seven
      | 8 => some CardValue.Eight
      | 9 => some CardValue.Nine
      | 10 => some CardValue.Skip
      | 11 => some CardValue.Reverse
      | 12 => some CardValue.DrawTwo
      | _ => none
    match color?, value? with
    | some color, some value => some ⟨color, value, p.2⟩
    | _, _ => none

/-- `Card::can_play_on` in `src/card.rs`: colors or values match, or
the played card is wild; always false when the card underneath is an
(uncolored) wild. -/
def Card.can_play_on (c card : Card) : Bool :=
  (c.color == card.color || c.value == card.value
      || c.color == CardColor.Wild)
    && card.color != CardColor.Wild

/-- `Deck::default_cards` in `src/deck.rs`: both iterations of every
non-seven value in each of the four colors, then the four wild cards. -/
def Deck.default_cards : List Card :=
  ([CardColor.Red, CardColor.Yellow, CardColor.Green, CardColor.Blue].flatMap
    fun color =>
      [CardValue.Zero, CardValue.One, CardValue.Two, CardValue.Three,
        CardValue.Four, CardValue.Five, CardValue.Six, CardValue.Eight,
        CardValue.Nine, CardValue.Skip, CardValue.Reverse,
        CardValue.DrawTwo].flatMap
        fun value => [⟨color, value, 1⟩, ⟨color, value, 2⟩])
  ++ (List.range 4).map fun i => ⟨CardColor.Wild, CardValue.Seven, i⟩

/-- `Deck::new` in `src/deck.rs`: a fresh deck holds the default
cards. -/
def Deck.new : List Card :=
  Deck.default_cards

/-- `Deck::draw` in `src/deck.rs`: pop `n` cards from the end of the
card vector (stopping silently when the vector is exhausted), and
return both the drawn cards (most recently popped first element drawn
first, i.e. in pop order) and the remaining deck. -/
def Deck.draw : Nat → List Card → List Card × List Card
  | 0, cards => ([], cards)
  | n + 1, cards =>
    match cards.getLast? with
    | none => ([], cards)
    | some c =>
      let r := Deck.draw n cards.dropLast
      (c :: r.1, r.2)

/-- `Deck::get_card_order` in `src/deck.rs`: each card through the
codec. -/
def Deck.get_card_order (cards : List Card) : List Nat :=
  cards.map Card.toByte

/-- `Deck::load_from` in `src/deck.rs`: decode every byte of the given
order (`Card::from` panics are propagated as `none`; they never fire,
see `fromByte_isSome`). -/
def Deck.load_from : List Nat → Option (List Card)
  | [] => some []
  | b :: rest =>
    match Card.fromByte b with
    | none => none
    | some c =>
      match Deck.load_from rest with
      | none => none
      | some cs => some (c :: cs)

/-- `Deck::is_empty` in `src/deck.rs`. -/
def Deck.is_empty (cards : List Card) : Bool :=
  cards.isEmpty

/-- Turn rotation direction (`Direction` in `src/info.rs`). -/
inductive Direction
  | Clockwise
  | CounterClockwise
  deriving DecidableEq, Repr

/-- A peer identifier: the 16 raw uuid bytes the wire protocol carries. -/
abbrev PeerId := List Nat

/-- `GameInfo` in `src/info.rs`. -/
structure GameInfo where
  current_player : Option PeerId
  order : List PeerId
  direction : Direction
  deriving DecidableEq, Repr

/-- `GameInfo::reset` in `src/info.rs`. -/
def GameInfo.reset (_ : GameInfo) : GameInfo :=
  ⟨none, [], Direction.Clockwise⟩

/-- `GameInfo::advance_turn` in `src/info.rs`: move `current_player`
one seat along `order` in the current direction; a `none`
current player stays `none`.  The `unwrap` on the seat lookup is
modelled as `none` (panic) when the current player is not in the
order. -/
def GameInfo.advance_turn (g : GameInfo) : Option GameInfo :=
  match g.current_player with
  | none => some { g with current_player := none }
  | some cp =>
    match g.order.findIdx? (· == cp) with
    | none => none
    | some current_index =>
      let next_index :=
        (match g.direction with
          | Direction.Clockwise => current_index + 1
          | Direction.CounterClockwise =>
            current_index + g.order.length - 1) % g.order.length
      match g.order[next_index]? with
      | none => none
      | some p => some { g with current_player := some p }

/-- `GameInfo::swap_direction` in `src/info.rs`. -/
def GameInfo.swap_direction (g : GameInfo) : GameInfo :=
  { g with
    direction :=
      match g.direction with
      | Direction.Clockwise => Direction.CounterClockwise
      | Direction.CounterClockwise => Direction.Clockwise }

/-- `Opponent` in `src/info.rs`; the display name is kept as the raw
bytes it was decoded from. -/
structure Opponent where
  id : PeerId
  name : List Nat
  card_count : Nat
  deriving DecidableEq, Repr

/-- The global screen state (`ScreenState` in `src/main.rs`). -/
inductive ScreenState
  | Menu
  | Game
  deriving DecidableEq, Repr

/-- The screen state for the game screen (`GameScreenState` in
`src/main.rs`). -/
inductive GameScreenState
  | Game
  | WildColor
  | Win
  deriving DecidableEq, Repr

/-- The menu screen state (`MenuState` in `src/menu/mod.rs`). -/
inductive MenuState
  | Disabled
  | Main
  | Join
  | Lobby
  | Settings
  deriving DecidableEq, Repr

/-- The mutable game state owned by one peer: the resources mutated by
the synchronization engine in `src/network.rs`, plus the list of `Win`
events it has emitted. -/
structure GameState where
  /-- `DiscardCards` resource (`src/deck.rs`); top card = last. -/
  discard_pile : List Card
  /-- `MainPlayer` resource (`src/deck.rs`): the local hand. -/
  main_player : List Card
  /-- `GameInfo` resource (`src/info.rs`). -/
  game_info : GameInfo
  /-- `PeerNames` resource (`src/network.rs`), name bytes per peer. -/
  peer_names : List (PeerId × List Nat)
  /-- `Opponents` resource (`src/info.rs`). -/
  opponents : List Opponent
  /-- `Deck` resource (`src/deck.rs`). -/
  deck : List Card
  screen_state : ScreenState
  menu_state : MenuState
  game_screen_state : GameScreenState
  /-- Winner ids sent through the `Win` event writer. -/
  wins : List PeerId
  deriving DecidableEq, Repr

/-- `SocketEvent` in `src/network.rs`. -/
inductive SocketEvent
  | Start
  | Draw
  | Play
  | Restart
  | Name
  | Wild
  deriving DecidableEq, Repr

/-- `impl TryFrom<u8> for SocketEvent` in `src/network.rs`; `none` is
the `InvalidByte` error. -/
def SocketEvent.fromByte : Nat → Option SocketEvent
  | 0 => some .Start
  | 1 => some .Draw
  | 2 => some .Play
  | 3 => some .Restart
  | 4 => some .Name
  | 5 => some .Wild
  | _ => none

/-- The byte list the Rust code stores for the display name
`"Unknown"` used when a peer is missing from the name table. -/
def unknownName : List Nat := [85, 110, 107, 110, 111, 119, 110]

/-- The `for opponent in opponents` loops of the Draw and DrawTwo
branches in `src/network.rs`: add `k` to the card count of the first
opponent with the given id (no change when the id is absent). -/
def incCardCount (pid : PeerId) (k : Nat) : List Opponent → List Opponent
  | [] => []
  | o :: os =>
    if o.id == pid then { o with card_count := o.card_count + k } :: os
    else o :: incCardCount pid k os

/-- The opponent loop of the Play branch in `src/network.rs`:
decrement the card count of the first opponent with the given id and
report a winner when the count reaches zero.  (The Rust `usize`
decrement is modelled with truncated `Nat` subtraction; every state
considered by the claims has a positive count.) -/
def playDecrement (pid : PeerId) : List Opponent → List Opponent × List PeerId
  | [] => ([], [])
  | o :: os =>
    if o.id == pid then
      let o' := { o with card_count := o.card_count - 1 }
      (o' :: os, if o'.card_count == 0 then [o'.id] else [])
    else
      let r := playDecrement pid os
      (o :: r.1, r.2)

/-- `HashMap::insert` on the peer-name table. -/
def insertName (pid : PeerId) (name : List Nat) :
    List (PeerId × List Nat) → List (PeerId × List Nat)
  | [] => [(pid, name)]
  | e :: es => if e.1 == pid then (pid, name) :: es else e :: insertName pid name es

/-- `HashMap::get` on the peer-name table. -/
def lookupName (names : List (PeerId × List Nat)) (pid : PeerId) :
    Option (List Nat) :=
  (names.find? (·.1 == pid)).map (·.2)

/-- The player-order parsing loop of the Start/Restart branch in
`src/network.rs`: read `count` peer ids of 16 bytes each and return
them with the remaining bytes; `none` is the
"ran out of bytes" error. -/
def parsePids : Nat → List Nat → Option (List PeerId × List Nat)
  | 0, rest => some ([], rest)
  | n + 1, rest =>
    if 16 ≤ rest.length then
      match parsePids n (rest.drop 16) with
      | some (pids, r) => some (rest.take 16 :: pids, r)
      | none => none
    else none

/-- `reset_game_state` in `src/network.rs` (entity despawns are
presentation-layer and omitted). -/
def resetGameState (s : GameState) : GameState :=
  { s with
    game_info := s.game_info.reset
    main_player := []
    discard_pile := []
    opponents := s.opponents.map fun o => { o with card_count := 5 }
    game_screen_state := GameScreenState.Game }

/-- `initialize_game_start` in `src/network.rs`: slice the local
5-card hand out of the front of the deck by seat index, deal
`5 * player_count` cards off the draw end, flip the top discard card
(twice when the first flip is a wild), and show the game ui.  `none`
models the panics: our pid missing from the order, the hand slice out
of range, or the deck exhausted at a flip. -/
def initGameStart (own_pid : PeerId) (s : GameState) : Option GameState :=
  match s.game_info.order.findIdx? (· == own_pid) with
  | none => none
  | some our_position =>
    if (our_position + 1) * 5 ≤ s.deck.length then
      let main_player := (s.deck.drop (our_position * 5)).take 5
      let deck := (Deck.draw (5 * s.game_info.order.length) s.deck).2
      let d1 := Deck.draw 1 deck
      match d1.1.head? with
      | none => none
      | some card =>
        if card.color == CardColor.Wild then
          let d2 := Deck.draw 1 d1.2
          match d2.1.head? with
          | none => none
          | some card2 =>
            some { s with
              main_player
              deck := d2.2
              discard_pile := s.discard_pile ++ [card] ++ [card2]
              screen_state := ScreenState.Game
              menu_state := MenuState.Disabled }
        else
          some { s with
            main_player
            deck := d1.2
            discard_pile := s.discard_pile ++ [card]
            screen_state := ScreenState.Game
            menu_state := MenuState.Disabled }
    else none

/-- `handle_card_effect` in `src/network.rs`: the Skip, Reverse and
DrawTwo arms, executed after the normal turn advance past the card's
player.  `none` models the panics (seat lookup in `advance_turn`,
missing current player). -/
def handleCardEffect (own_pid : PeerId) (card : Card) (card_player : PeerId)
    (s : GameState) : Option GameState :=
  match card.value with
  | CardValue.Skip =>
    match s.game_info.advance_turn with
    | none => none
    | some gi => some { s with game_info := gi }
  | CardValue.Reverse =>
    match s.game_info.swap_direction.advance_turn with
    | none => none
    | some gi =>
      match gi.advance_turn with
      | none => none
      | some gi => some { s with game_info := gi }
  | CardValue.DrawTwo =>
    match s.game_info.current_player with
    | none => none
    | some next_player =>
      if next_player == card_player then
        some s
      else if next_player == own_pid then
        let r := Deck.draw 2 s.deck
        if r.1.isEmpty then
          some s
        else
          some { s with main_player := s.main_player ++ r.1, deck := r.2 }
      else
        some { s with
          opponents := incCardCount next_player 2 s.opponents
          deck := (Deck.draw 2 s.deck).2 }
  | _ => some s

/-- Outcome of feeding one inbound packet to `receive_messages`
(`src/network.rs`): the process panics, the packet is dropped by an
early `return` (with or without an operator-visible `error!` report,
carrying the state as of the return), or the packet is applied. -/
inductive RecvResult
  | crash
  | dropped (reported : Bool) (s : GameState)
  | ok (s : GameState)
  deriving DecidableEq, Repr

/-- The per-packet body of `receive_messages` in `src/network.rs`:
decode the leading event byte and dispatch on the six event kinds.
Unguarded `packet[1]` indexing, card/color decode panics and `expect`
calls are `crash`. -/
def receivePacket (own_pid : PeerId) (s : GameState) (peer : PeerId)
    (packet : List Nat) : RecvResult :=
  match packet.head? with
  | none => RecvResult.dropped false s
  | some event_code =>
    match SocketEvent.fromByte event_code with
    | none => RecvResult.dropped true s
    | some event =>
      match event with
      | SocketEvent.Start | SocketEvent.Restart =>
        let s := if event == SocketEvent.Restart then resetGameState s else s
        match packet[1]? with
        | none => RecvResult.crash
        | some player_count =>
          match parsePids player_count (packet.drop 2) with
          | none => RecvResult.dropped true s
          | some (order, deck_bytes) =>
            let opponents := (order.filter (fun pid => pid != own_pid)).map
              fun pid =>
                Opponent.mk pid ((lookupName s.peer_names pid).getD unknownName) 5
            let s := { s with
              opponents := opponents
              game_info := { s.game_info with
                order := order
                current_player := order.head? } }
            match Deck.load_from deck_bytes with
            | none => RecvResult.crash
            | some cards =>
              match initGameStart own_pid { s with deck := cards } with
              | none => RecvResult.crash
              | some s => RecvResult.ok s
      | SocketEvent.Draw =>
        let s := { s with
          deck := (Deck.draw 1 s.deck).2
          opponents := incCardCount peer 1 s.opponents }
        match s.game_info.advance_turn with
        | none => RecvResult.crash
        | some gi => RecvResult.ok { s with game_info := gi }
      | SocketEvent.Play =>
        match packet[1]? with
        | none => RecvResult.crash
        | some b =>
          match Card.fromByte b with
          | none => RecvResult.crash
          | some card =>
            let r := playDecrement peer s.opponents
            let s := { s with
              discard_pile := s.discard_pile ++ [card]
              opponents := r.1
              wins := s.wins ++ r.2 }
            match s.game_info.advance_turn with
            | none => RecvResult.crash
            | some gi =>
              match handleCardEffect own_pid card peer { s with game_info := gi } with
              | none => RecvResult.crash
              | some s => RecvResult.ok s
      | SocketEvent.Name =>
        RecvResult.ok
          { s with peer_names := insertName peer (packet.drop 1) s.peer_names }
      | SocketEvent.Wild =>
        match packet[1]? with
        | none => RecvResult.crash
        | some b =>
          match CardColor.fromByte b with
          | none => RecvResult.crash
          | some card_color =>
            match s.discard_pile.getLast? with
            | none => RecvResult.crash
            | some top =>
              let new_card := { top with color := card_color }
              RecvResult.ok { s with discard_pile := s.discard_pile ++ [new_card] }

/-- `handle_play_card` in `src/network.rs`, for one locally played
card (the broadcast to the peers is not part of the local state):
advance the turn, apply the card effect with the local peer as the
card's player, and emit a `Win` when the local hand is empty. -/
def handlePlayCard (own_pid : PeerId) (card : Card) (s : GameState) :
    Option GameState :=
  match s.game_info.advance_turn with
  | none => none
  | some gi =>
    match handleCardEffect own_pid card own_pid { s with game_info := gi } with
    | none => none
    | some s =>
      if s.main_player.isEmpty then some { s with wins := s.wins ++ [own_pid] }
      else some s

/-- `shuffle_discard_pile` in `src/game_ui/board.rs`, parameterized by
the reordering the random shuffle applies: when the deck is exhausted
and the discard pile has at least two cards, drain all but the top
discard card, reset the color of the seven-valued (wild) cards among
them, append them to the deck and shuffle it. -/
def shuffleDiscardPile (shuffle : List Card → List Card)
    (discard deck : List Card) : List Card × List Card :=
  if Deck.is_empty deck then
    let len := discard.length
    if len ≤ 1 then (discard, deck)
    else
      let cards := discard.take (len - 1)
      let discard := discard.drop (len - 1)
      let cards := cards.map fun c =>
        if c.value == CardValue.Seven then { c with color := CardColor.Wild }
        else c
      (discard, shuffle (deck ++ cards))
  else (discard, deck)

/-- Total card decode: `Card::from` never panics (`fromByte_isSome`
below), so decoding a byte list is plain mapping of this function. -/
def decodedCard (b : Nat) : Card :=
  (Card.fromByte b).getD ⟨CardColor.Wild, CardValue.Seven, 0⟩

/-- The tracked card count of the first opponent entry with the given
id. -/
def lookupCount (os : List Opponent) (pid : PeerId) : Option Nat :=
  (os.find? (fun o => o.id == pid)).map Opponent.card_count

/-- The game state right after startup: every resource at its
initialization value (`setup` systems in `src/deck.rs`,
`src/info.rs`, `src/network.rs`; state defaults in `src/main.rs` and
`src/menu/mod.rs`). -/
def initialState : GameState :=
  ⟨[], [], ⟨none, [], Direction.Clockwise⟩, [], [], [],
    ScreenState.Menu, MenuState.Disabled, GameScreenState.Game, []⟩

/-- A concrete well-formed Start packet: event byte 0, player count 2,
two 16-byte peer ids, then the identity deck order `0..107`. -/
def startPacket108 : List Nat :=
  0 :: 2 :: (List.replicate 16 0 ++ (List.replicate 16 1 ++ List.range 108))

/-- A concrete pre-deal state whose loaded deck has the minimum
`5*players + 2 = 12` cards: seats `[0]` and `[1]`, the decoded bytes
`0..11` as deck. -/
def st12 : GameState :=
  { initialState with
    game_info := ⟨some [0], [[0], [1]], Direction.Clockwise⟩
    deck := (List.range 12).map decodedCard }

/-! ## Helper lemmas -/

/-- Closed form of the `Deck::draw` pop loop: the drawn cards are the
first `n` cards of the reversed deck and the rest of the deck stays. -/
theorem Deck.draw_eq (n : Nat) (l : List Card) :
    Deck.draw n l = (l.reverse.take n, l.take (l.length - n)) := by
  induction n generalizing l with
  | zero => simp [Deck.draw]
  | succ n ih =>
    induction l using List.reverseRecOn with
    | nil => simp [Deck.draw]
    | append_singleton xs x _ =>
      simp only [Deck.draw, List.getLast?_concat, List.dropLast_concat, ih,
        List.reverse_concat, List.take_succ_cons, List.length_append,
        List.length_cons, List.length_nil]
      rw [List.take_append_of_le_length (by omega)]
      congr 2
      omega

/-- Drawing `n` cards leaves `length - n` cards. -/
theorem Deck.draw_snd_length (n : Nat) (l : List Card) :
    (Deck.draw n l).2.length = l.length - n := by
  simp [Deck.draw_eq]

/-- Drawing `n` cards yields `min n length` cards. -/
theorem Deck.draw_fst_length (n : Nat) (l : List Card) :
    (Deck.draw n l).1.length = min n l.length := by
  simp [Deck.draw_eq]

/-- `incCardCount` adds `k` to the tracked count of the given id. -/
theorem lookupCount_incCardCount (pid : PeerId) (k : Nat) (os : List Opponent) :
    lookupCount (incCardCount pid k os) pid =
      (lookupCount os pid).map (· + k) := by
  induction os with
  | nil => simp [incCardCount, lookupCount]
  | cons o os ih =>
    by_cases h : o.id = pid
    · simp [incCardCount, lookupCount, h]
    · have hb : (o.id == pid) = false := beq_eq_false_iff_ne.mpr h
      simp only [incCardCount, hb, Bool.false_eq_true, if_false, lookupCount,
        List.find?_cons]
      simpa [lookupCount, Option.map_map] using ih

/-- The card decoder is total: the `unreachable!` arms of
`impl From<u8> for Card` can never fire. -/
theorem fromByte_isSome (b : Nat) : (Card.fromByte b).isSome := by
  by_cases h : 104 ≤ b
  · simp [Card.fromByte, h]
  · have h104 : b < 104 := by omega
    have hall : ∀ x : Fin 104, (Card.fromByte x.val).isSome = true := by decide
    exact hall ⟨b, h104⟩

/-- `Deck::load_from` never panics: it decodes every byte. -/
theorem load_from_eq (bytes : List Nat) :
    Deck.load_from bytes = some (bytes.map decodedCard) := by
  induction bytes with
  | nil => rfl
  | cons b bs ih =>
    obtain ⟨c, hc⟩ := Option.isSome_iff_exists.mp (fromByte_isSome b)
    simp [Deck.load_from, hc, ih, decodedCard]

/-- The order-parsing loop fails exactly as the source does when the
packet runs out of bytes for the declared player count. -/
theorem parsePids_short (count : Nat) (bytes : List Nat)
    (h : bytes.length < 16 * count) : parsePids count bytes = none := by
  induction count generalizing bytes with
  | zero => omega
  | succ n ih =>
    simp only [parsePids]
    split
    · rw [ih (bytes.drop 16) (by simp; omega)]
    · rfl

/-- Parsing two 16-byte peer ids from a well-formed payload. -/
theorem parsePids_two (p1 p2 : PeerId) (rest : List Nat)
    (h1 : p1.length = 16) (h2 : p2.length = 16) :
    parsePids 2 (p1 ++ (p2 ++ rest)) = some ([p1, p2], rest) := by
  have e1 : (p1 ++ (p2 ++ rest)).take 16 = p1 := List.take_left' h1
  have e2 : (p1 ++ (p2 ++ rest)).drop 16 = p2 ++ rest := List.drop_left' h1
  have e3 : (p2 ++ rest).take 16 = p2 := List.take_left' h2
  have e4 : (p2 ++ rest).drop 16 = rest := List.drop_left' h2
  simp only [parsePids, e1, e2, e3, e4, List.length_append, h1, h2]
  rw [if_pos (by omega), if_pos (by omega)]

/-- Bytes `0..=5` are the only valid event codes. -/
theorem event_byte_invalid (b : Nat) (hb : 6 ≤ b) :
    SocketEvent.fromByte b = none := by
  match b, hb with
  | n + 6, _ => rfl

/-- Elements of a shorter prefix belong to a longer prefix. -/
theorem mem_take_of_take_le {l : List Card} {m n : Nat} (h : m ≤ n)
    {c : Card} (hc : c ∈ l.take m) : c ∈ l.take n := by
  have heq : l.take m = (l.take n).take m := by
    rw [List.take_take, Nat.min_eq_left h]
  rw [heq] at hc
  exact List.mem_of_mem_take hc

/-- Elements of the `[a, a+b)` window belong to any prefix covering
it. -/
theorem mem_take_of_mem_drop_take {l : List Card} {a b n : Nat}
    (h : a + b ≤ n) {c : Card} (hc : c ∈ (l.drop a).take b) :
    c ∈ l.take n := by
  have hb : b = (a + b) - a := by omega
  rw [hb, ← List.drop_take] at hc
  exact mem_take_of_take_le h (List.mem_of_mem_drop hc)

/-- The single drawn card is the last card of the deck. -/
theorem draw_one_head (X : List Card) :
    (Deck.draw 1 X).1.head? = X.getLast? := by
  rw [Deck.draw_eq]
  simp [List.head?_take]

/-- A nonempty list has a last element. -/
theorem getLast?_of_ne_nil (X : List Card) (h : X ≠ []) :
    ∃ c, X.getLast? = some c := by
  cases hX : X.getLast? with
  | none => exact absurd (List.getLast?_eq_none_iff.mp hX) h
  | some c => exact ⟨c, rfl⟩

/-- Dropping all but one element of a nonempty list leaves exactly its
last element. -/
theorem drop_pred_singleton (l : List Card) (h : 1 ≤ l.length) :
    ∃ top, l.getLast? = some top ∧ l.drop (l.length - 1) = [top] := by
  induction l using List.reverseRecOn with
  | nil => simp at h
  | append_singleton xs x _ =>
    refine ⟨x, List.getLast?_concat xs, ?_⟩
    have hlen : (xs ++ [x]).length - 1 = xs.length := by simp
    rw [hlen, List.drop_left]

/-- Receiving a well-formed two-player Start packet reduces to
loading opponents, order and deck and running the game-start
initialization. -/
theorem receive_start_eq (own host p1 p2 : PeerId) (s : GameState)
    (deckBytes : List Nat) (h1 : p1.length = 16) (h2 : p2.length = 16) :
    receivePacket own s host (0 :: 2 :: (p1 ++ (p2 ++ deckBytes))) =
      match initGameStart own
        { s with
          opponents := ([p1, p2].filter fun pid => pid != own).map fun pid =>
            ⟨pid, (lookupName s.peer_names pid).getD unknownName, 5⟩
          game_info := { s.game_info with
            order := [p1, p2]
            current_player := some p1 }
          deck := deckBytes.map decodedCard } with
      | none => RecvResult.crash
      | some s' => RecvResult.ok s' := by
  simp [receivePacket, SocketEvent.fromByte, parsePids_two p1 p2 deckBytes h1 h2,
    load_from_eq]

/-- Game-start initialization over a 108-card deck with two seats:
the local hand is the seat's front window, the top discard is the
card at index 97 unless it is a wild (then the cards at indices 97
and 96 are flipped), and everything else is untouched. -/
theorem initGameStart_two_seats (own : PeerId) (s : GameState) (pos : Nat)
    (hfind : s.game_info.order.findIdx? (· == own) = some pos)
    (hord : s.game_info.order.length = 2)
    (hlen : s.deck.length = 108)
    (hpos : pos < 2) :
    ∃ s', initGameStart own s = some s'
      ∧ s'.main_player = (s.deck.drop (pos * 5)).take 5
      ∧ s'.game_info = s.game_info
      ∧ s'.opponents = s.opponents
      ∧ s'.wins = s.wins
      ∧ (∀ c, s.deck[97]? = some c → c.color ≠ CardColor.Wild →
          s'.discard_pile = s.discard_pile ++ [c] ∧ s'.deck = s.deck.take 97)
      ∧ (∀ c c', s.deck[97]? = some c → c.color = CardColor.Wild →
          s.deck[96]? = some c' →
          s'.discard_pile = s.discard_pile ++ [c, c'] ∧
            s'.deck = s.deck.take 96) := by
  have hguard : (pos + 1) * 5 ≤ s.deck.length := by omega
  have h97 : s.deck[97]? = some (s.deck.get ⟨97, by omega⟩) := by
    rw [List.getElem?_eq_getElem (by omega)]
    rfl
  have h96 : s.deck[96]? = some (s.deck.get ⟨96, by omega⟩) := by
    rw [List.getElem?_eq_getElem (by omega)]
    rfl
  have hdeal : (Deck.draw (5 * s.game_info.order.length) s.deck).2 =
      s.deck.take 98 := by
    rw [Deck.draw_eq, hord, hlen]
  have hX1 : (s.deck.take 98).getLast? = s.deck[97]? := by
    rw [List.getLast?_take, if_neg (by omega)]
    rw [show (98 : Nat) - 1 = 97 from rfl, h97]
    rfl
  have htk98 : (s.deck.take 98).length = 98 := by simp [hlen]
  have hd1 : (Deck.draw 1 (s.deck.take 98)).2 = s.deck.take 97 := by
    rw [Deck.draw_eq, htk98, List.take_take]
    norm_num
  have hX2 : (s.deck.take 97).getLast? = s.deck[96]? := by
    rw [List.getLast?_take, if_neg (by omega)]
    rw [show (97 : Nat) - 1 = 96 from rfl, h96]
    rfl
  have htk97 : (s.deck.take 97).length = 97 := by simp [hlen]
  have hd2 : (Deck.draw 1 (s.deck.take 97)).2 = s.deck.take 96 := by
    rw [Deck.draw_eq, htk97, List.take_take]
    norm_num
  simp only [initGameStart, hfind, hguard, if_true, hdeal, draw_one_head,
    hX1, h97, hd1]
  by_cases hcol : (s.deck.get ⟨97, by omega⟩).color = CardColor.Wild
  · simp only [hcol, beq_self_eq_true, if_true, hX2, h96, hd2]
    refine ⟨_, rfl, rfl, rfl, rfl, rfl, ?_, ?_⟩
    · intro c hc hc2
      cases hc
      exact absurd hcol hc2
    · intro c c' hc hcw hc'
      cases hc
      cases hc'
      exact ⟨by simp, rfl⟩
  · simp only [beq_eq_false_iff_ne.mpr hcol, Bool.false_eq_true, if_false]
    refine ⟨_, rfl, rfl, rfl, rfl, rfl, ?_, ?_⟩
    · intro c hc hc2
      cases hc
      exact ⟨rfl, rfl⟩
    · intro c c' hc hcw hc'
      cases hc
      exact absurd hcw hcol

/-- Locally playing a DrawTwo in a two-player clockwise game whose
current player is the local peer: the turn advances to the opponent,
who is charged two cards. -/
theorem handlePlayCard_drawtwo (p1 p2 : PeerId) (card : Card)
    (s : GameState) (hval : card.value = CardValue.DrawTwo)
    (hne : p1 ≠ p2)
    (hcur : s.game_info.current_player = some p1)
    (hord : s.game_info.order = [p1, p2])
    (hdir : s.game_info.direction = Direction.Clockwise)
    (hmp : s.main_player.isEmpty = false) :
    ∃ s₂, handlePlayCard p1 card s = some s₂
      ∧ s₂.opponents = incCardCount p2 2 s.opponents
      ∧ s₂.game_info.current_player = some p2 := by
  have hb1 : (p2 == p1) = false := beq_eq_false_iff_ne.mpr (Ne.symm hne)
  simp only [handlePlayCard, GameInfo.advance_turn, hcur, hord, hdir,
    List.findIdx?_cons, beq_self_eq_true, if_true, handleCardEffect, hval,
    hb1, Bool.false_eq_true, if_false, hmp, List.length_cons, List.length_nil,
    List.getElem?_cons_succ, List.getElem?_cons_zero, Nat.reduceMod,
    Nat.reduceAdd]
  exact ⟨_, rfl, rfl, rfl⟩

/-! ## Claim theorems -/

/-- C1: the card codec round-trips in both directions.  For every
byte `b` in `0..=107`, `encode (decode b) = b`; for every card of the
default deck (non-wild cards with iteration 1 or 2, wild cards with
iteration 0..=3), `decode (encode c) = c`; and `encode` on a wild
card ignores its `value` field. -/
theorem card_codec_round_trip :
    (∀ b : Fin 108, (Card.fromByte b.val).map Card.toByte = some b.val)
    ∧ (∀ c ∈ Deck.default_cards, Card.fromByte c.toByte = some c)
    ∧ ∀ (v₁ v₂ : CardValue) (it : Nat),
        Card.toByte ⟨CardColor.Wild, v₁, it⟩ =
          Card.toByte ⟨CardColor.Wild, v₂, it⟩ :=
  ⟨by decide, by decide, fun _ _ _ => rfl⟩

/-- Witness for `card_codec_round_trip`: the round trip evaluated on
one concrete deck card. -/
theorem card_codec_round_trip_witness :
    Card.fromByte (Card.toByte ⟨CardColor.Blue, CardValue.DrawTwo, 2⟩) =
      some ⟨CardColor.Blue, CardValue.DrawTwo, 2⟩ :=
  card_codec_round_trip.2.1 ⟨CardColor.Blue, CardValue.DrawTwo, 2⟩ (by decide)

/-- C7: `can_play_on c top` holds exactly when `c` matches `top`'s
color or value or is a wild, and `top` is not an (uncolored) wild; in
particular every play attempt onto an unresolved wild is rejected. -/
theorem can_play_on_iff (c top : Card) :
    c.can_play_on top = true ↔
      ((c.color = top.color ∨ c.value = top.value
          ∨ c.color = CardColor.Wild)
        ∧ top.color ≠ CardColor.Wild) := by
  simp [Card.can_play_on, bne_iff_ne, or_assoc]

/-- C8 counterexample: decoding the out-of-range byte 108 does not
fail; it returns a card (a wild with iteration 4), refuting the claim
that decode fails on every byte that does not encode one of the legal
cards. -/
theorem decode_out_of_range_returns_card :
    Card.fromByte 108 = some ⟨CardColor.Wild, CardValue.Seven, 4⟩ := by
  decide

/-- C8 (amended): decode is total on the byte domain: every byte
`0..=255` decodes to a card, and every byte `>= 104` (in particular
every out-of-range byte above 107) decodes to a wild card with
iteration `b - 104` instead of failing. -/
theorem decode_total (b : Nat) (hb : b < 256) :
    ∃ c, Card.fromByte b = some c
      ∧ (104 ≤ b → c = ⟨CardColor.Wild, CardValue.Seven, b - 104⟩) := by
  by_cases h : 104 ≤ b
  · refine ⟨⟨CardColor.Wild, CardValue.Seven, b - 104⟩, ?_, fun _ => rfl⟩
    simp [Card.fromByte, h]
  · have h104 : b < 104 := by omega
    have hall : ∀ x : Fin 104, (Card.fromByte x.val).isSome = true := by decide
    obtain ⟨c, hc⟩ := Option.isSome_iff_exists.mp (hall ⟨b, h104⟩)
    exact ⟨c, hc, fun hh => absurd hh h⟩

/-- Witness for `decode_total` at the concrete out-of-range byte
200. -/
theorem decode_total_witness :
    ∃ c, Card.fromByte 200 = some c
      ∧ (104 ≤ 200 → c = ⟨CardColor.Wild, CardValue.Seven, 200 - 104⟩) :=
  decode_total 200 (by decide)

/-- C4 counterexample: the freshly created default deck holds 100
cards, not 108 as claimed. -/
theorem default_deck_size_not_108 :
    Deck.new.length = 100 ∧ Deck.new.length ≠ 108 := by
  decide

/-- C4 (amended): the freshly created default deck has total size
100: for each non-wild color the physical duplicates (iterations 1
and 2) of every value with 7s excluded from the non-wild set — 96
physical non-wild cards — plus the four wild cards (iterations 0–3)
taking the 7s' place; no card is repeated. -/
theorem default_deck_composition :
    Deck.new.length = 100
    ∧ Deck.new.Nodup
    ∧ (Deck.new.filter fun c => c.color != CardColor.Wild).length = 96
    ∧ (Deck.new.filter fun c => c.color == CardColor.Wild).length = 4
    ∧ ∀ c ∈ Deck.new,
        (c.color ≠ CardColor.Wild ∧ c.value ≠ CardValue.Seven
          ∧ (c.iteration = 1 ∨ c.iteration = 2))
        ∨ (c.color = CardColor.Wild ∧ c.value = CardValue.Seven
            ∧ c.iteration < 4) :=
  ⟨by decide, by decide, by decide, by decide, by decide⟩

/-- Witness for `default_deck_composition`: the membership clause
evaluated at one concrete deck card. -/
theorem default_deck_composition_witness :
    (CardColor.Red ≠ CardColor.Wild ∧ CardValue.Zero ≠ CardValue.Seven
      ∧ ((1 : Nat) = 1 ∨ (1 : Nat) = 2))
    ∨ (CardColor.Red = CardColor.Wild ∧ CardValue.Zero = CardValue.Seven
        ∧ (1 : Nat) < 4) :=
  default_deck_composition.2.2.2.2 ⟨CardColor.Red, CardValue.Zero, 1⟩ (by decide)

/-- C5: DrawTwo resolution after the normal advance past the card's
player, on a deck with at least 2 cards: when the player due to act
is the card's player nothing happens; otherwise that player receives
two cards — appended to the local hand when it is the local peer,
or the tracked count of that opponent raised by exactly 2 — and the
local deck shrinks by exactly 2 in both cases. -/
theorem drawtwo_effect (own cp next : PeerId) (card : Card) (s : GameState)
    (hval : card.value = CardValue.DrawTwo)
    (hcur : s.game_info.current_player = some next)
    (hdeck : 2 ≤ s.deck.length) :
    (next = cp → handleCardEffect own card cp s = some s)
    ∧ (next ≠ cp → next = own →
        ∃ drawn, drawn.length = 2
          ∧ handleCardEffect own card cp s =
              some { s with main_player := s.main_player ++ drawn
                            deck := (Deck.draw 2 s.deck).2 }
          ∧ (Deck.draw 2 s.deck).2.length + 2 = s.deck.length)
    ∧ (next ≠ cp → next ≠ own →
        handleCardEffect own card cp s =
          some { s with opponents := incCardCount next 2 s.opponents
                        deck := (Deck.draw 2 s.deck).2 }
        ∧ (Deck.draw 2 s.deck).2.length + 2 = s.deck.length
        ∧ ∀ c₀, lookupCount s.opponents next = some c₀ →
            lookupCount (incCardCount next 2 s.opponents) next = some (c₀ + 2)) := by
  have hlen2 : (Deck.draw 2 s.deck).2.length + 2 = s.deck.length := by
    rw [Deck.draw_snd_length]; omega
  have hfst : (Deck.draw 2 s.deck).1.length = 2 := by
    rw [Deck.draw_fst_length]; omega
  have hni : (Deck.draw 2 s.deck).1.isEmpty = false := by
    cases hd : (Deck.draw 2 s.deck).1 with
    | nil => rw [hd] at hfst; simp at hfst
    | cons a t => rfl
  refine ⟨?_, ?_, ?_⟩
  · intro h
    subst h
    simp [handleCardEffect, hval, hcur]
  · intro hne hown
    subst hown
    refine ⟨(Deck.draw 2 s.deck).1, hfst, ?_, hlen2⟩
    simp [handleCardEffect, hval, hcur, hne, hni]
  · intro hne hnown
    refine ⟨?_, hlen2, ?_⟩
    · simp [handleCardEffect, hval, hcur, hne, hnown]
    · intro c₀ hc₀
      rw [lookupCount_incCardCount, hc₀]
      rfl

/-- Witness for `drawtwo_effect`: the degenerate case evaluated
concretely — the player due to act is the card's player, so the state
is untouched. -/
theorem drawtwo_effect_witness :
    handleCardEffect [1] ⟨CardColor.Red, CardValue.DrawTwo, 1⟩ [0]
        { initialState with
          game_info := ⟨some [0], [[0], [1]], Direction.Clockwise⟩
          deck := [⟨CardColor.Red, CardValue.Zero, 1⟩,
            ⟨CardColor.Red, CardValue.One, 1⟩] } =
      some { initialState with
        game_info := ⟨some [0], [[0], [1]], Direction.Clockwise⟩
        deck := [⟨CardColor.Red, CardValue.Zero, 1⟩,
          ⟨CardColor.Red, CardValue.One, 1⟩] } :=
  (drawtwo_effect [1] [0] [0] _ _ rfl rfl (by decide)).1 rfl

/-- C6 counterexample: with exactly two players Reverse does NOT
behave like a Skip.  From the post-advance state (B to act after A
played), the Reverse arm leaves the turn with B while the Skip arm
returns it to A. -/
theorem reverse_vs_skip_two_players :
    handleCardEffect [9] ⟨CardColor.Red, CardValue.Reverse, 1⟩ [9]
        { initialState with
          game_info := ⟨some [1], [[0], [1]], Direction.Clockwise⟩ } =
      some { initialState with
        game_info := ⟨some [1], [[0], [1]], Direction.CounterClockwise⟩ }
    ∧ handleCardEffect [9] ⟨CardColor.Red, CardValue.Skip, 1⟩ [9]
        { initialState with
          game_info := ⟨some [1], [[0], [1]], Direction.Clockwise⟩ } =
      some { initialState with
        game_info := ⟨some [0], [[0], [1]], Direction.Clockwise⟩ }
    ∧ (some ([1] : PeerId) ≠ some ([0] : PeerId)) := by
  decide

/-- C6 (amended): Skip performs one extra advance (order `[A,B,C]`
clockwise, A played Skip: after the normal advance to B the effect
lands the turn on C); Reverse performs `swap_direction` then
`advance_turn` twice (from B the direction flips, the turn returns to
A, and the further advance yields C); with exactly two players
Reverse leaves the turn with the other player B with the direction
flipped — the net effect of a plain card — whereas Skip would return
the turn to A. -/
theorem skip_reverse_composition (A B C own cp : PeerId) (s : GameState)
    (hAB : A ≠ B) (_hAC : A ≠ C) (_hBC : B ≠ C) :
    (GameInfo.advance_turn ⟨some A, [A, B, C], Direction.Clockwise⟩ =
        some ⟨some B, [A, B, C], Direction.Clockwise⟩)
    ∧ (handleCardEffect own ⟨CardColor.Red, CardValue.Skip, 1⟩ cp
          { s with game_info := ⟨some B, [A, B, C], Direction.Clockwise⟩ } =
        some { s with game_info := ⟨some C, [A, B, C], Direction.Clockwise⟩ })
    ∧ (GameInfo.swap_direction ⟨some B, [A, B, C], Direction.Clockwise⟩ =
        ⟨some B, [A, B, C], Direction.CounterClockwise⟩)
    ∧ (GameInfo.advance_turn ⟨some B, [A, B, C], Direction.CounterClockwise⟩ =
        some ⟨some A, [A, B, C], Direction.CounterClockwise⟩)
    ∧ (GameInfo.advance_turn ⟨some A, [A, B, C], Direction.CounterClockwise⟩ =
        some ⟨some C, [A, B, C], Direction.CounterClockwise⟩)
    ∧ (handleCardEffect own ⟨CardColor.Red, CardValue.Reverse, 1⟩ cp
          { s with game_info := ⟨some B, [A, B, C], Direction.Clockwise⟩ } =
        some { s with
          game_info := ⟨some C, [A, B, C], Direction.CounterClockwise⟩ })
    ∧ (handleCardEffect own ⟨CardColor.Red, CardValue.Skip, 1⟩ cp
          { s with game_info := ⟨some B, [A, B], Direction.Clockwise⟩ } =
        some { s with game_info := ⟨some A, [A, B], Direction.Clockwise⟩ })
    ∧ (handleCardEffect own ⟨CardColor.Red, CardValue.Reverse, 1⟩ cp
          { s with game_info := ⟨some B, [A, B], Direction.Clockwise⟩ } =
        some { s with
          game_info := ⟨some B, [A, B], Direction.CounterClockwise⟩ }) := by
  refine ⟨?_, ?_, ?_, ?_, ?_, ?_, ?_, ?_⟩ <;>
    simp [handleCardEffect, GameInfo.advance_turn, GameInfo.swap_direction, hAB]

/-- Witness for `skip_reverse_composition` at concrete seats. -/
theorem skip_reverse_composition_witness :
    GameInfo.advance_turn ⟨some [0], [[0], [1], [2]], Direction.Clockwise⟩ =
      some ⟨some [1], [[0], [1], [2]], Direction.Clockwise⟩ :=
  (skip_reverse_composition [0] [1] [2] [9] [8] initialState
    (by decide) (by decide) (by decide)).1

/-- C9: when the deck is empty and the discard pile holds `L ≥ 2`
cards, reclaim moves every discard card except the top one back into
the deck with every wild card's chosen color reset (wild cards are
the seven-valued cards of this deck), leaves exactly the former top
card in the discard pile, and reshuffles, so the deck afterwards
holds exactly `L-1` cards equal as a multiset to the removed cards
modulo the reset. -/
theorem reclaim_discard_pile (shuffle : List Card → List Card)
    (hshuffle : ∀ l, (shuffle l).Perm l)
    (discard : List Card) (hlen : 2 ≤ discard.length) :
    ∃ top, discard.getLast? = some top
      ∧ (shuffleDiscardPile shuffle discard []).1 = [top]
      ∧ (shuffleDiscardPile shuffle discard []).2.length = discard.length - 1
      ∧ (shuffleDiscardPile shuffle discard []).2.Perm
          ((discard.take (discard.length - 1)).map fun c =>
            if c.value == CardValue.Seven then { c with color := CardColor.Wild }
            else c) := by
  obtain ⟨top, htop, hdrop⟩ := drop_pred_singleton discard (by omega)
  have hnotle : ¬ discard.length ≤ 1 := by omega
  have heq : shuffleDiscardPile shuffle discard [] =
      (discard.drop (discard.length - 1),
        shuffle ((discard.take (discard.length - 1)).map fun c =>
          if c.value == CardValue.Seven then { c with color := CardColor.Wild }
          else c)) := by
    simp [shuffleDiscardPile, Deck.is_empty, hnotle]
  rw [heq]
  refine ⟨top, htop, hdrop, ?_, hshuffle _⟩
  rw [(hshuffle _).length_eq, List.length_map, List.length_take]
  omega

/-- Witness for `reclaim_discard_pile`: an exhausted deck, a two-card
discard pile headed by a color-chosen wild; the identity reshuffle. -/
theorem reclaim_discard_pile_witness :
    ∃ top, ([⟨CardColor.Red, CardValue.Seven, 1⟩,
        ⟨CardColor.Blue, CardValue.Five, 1⟩] : List Card).getLast? = some top
      ∧ (shuffleDiscardPile id [⟨CardColor.Red, CardValue.Seven, 1⟩,
          ⟨CardColor.Blue, CardValue.Five, 1⟩] []).1 = [top]
      ∧ (shuffleDiscardPile id [⟨CardColor.Red, CardValue.Seven, 1⟩,
          ⟨CardColor.Blue, CardValue.Five, 1⟩] []).2.length =
          ([⟨CardColor.Red, CardValue.Seven, 1⟩,
            ⟨CardColor.Blue, CardValue.Five, 1⟩] : List Card).length - 1
      ∧ (shuffleDiscardPile id [⟨CardColor.Red, CardValue.Seven, 1⟩,
          ⟨CardColor.Blue, CardValue.Five, 1⟩] []).2.Perm
          ((([⟨CardColor.Red, CardValue.Seven, 1⟩,
            ⟨CardColor.Blue, CardValue.Five, 1⟩] : List Card).take
              (([⟨CardColor.Red, CardValue.Seven, 1⟩,
                ⟨CardColor.Blue, CardValue.Five, 1⟩] : List Card).length - 1)).map
            fun c =>
              if c.value == CardValue.Seven then
                { c with color := CardColor.Wild }
              else c) :=
  reclaim_discard_pile id (fun l => List.Perm.refl l) _ (by decide)

/-- C3 counterexample: a truncated Play packet (the bare event byte,
no card byte) makes `receive_messages` panic through the unguarded
`packet[1]` index instead of dropping the packet. -/
theorem truncated_play_packet_crashes :
    receivePacket [0] initialState [1] [2] = RecvResult.crash := by
  decide

/-- C3 (amended): a packet whose leading byte is not one of the six
event kinds is dropped with an operator-visible error report and the
game state completely unchanged; a Start packet whose payload is too
short for the declared player count is likewise dropped and reported
with the state unchanged, while the same Restart packet is dropped
and reported only after the state reset has already been applied.  (A
payload truncated before the byte a branch indexes crashes instead,
see the counterexample.) -/
theorem malformed_packet_handling (own peer : PeerId) (s : GameState)
    (b : Nat) (rest : List Nat) (hb : 6 ≤ b)
    (count : Nat) (order_bytes : List Nat)
    (hshort : order_bytes.length < 16 * count) :
    receivePacket own s peer (b :: rest) = RecvResult.dropped true s
    ∧ receivePacket own s peer (0 :: count :: order_bytes) =
        RecvResult.dropped true s
    ∧ receivePacket own s peer (3 :: count :: order_bytes) =
        RecvResult.dropped true (resetGameState s) := by
  refine ⟨?_, ?_, ?_⟩
  · simp [receivePacket, event_byte_invalid b hb]
  · simp [receivePacket, SocketEvent.fromByte,
      parsePids_short count order_bytes hshort]
  · simp [receivePacket, SocketEvent.fromByte,
      parsePids_short count order_bytes hshort]

/-- Witness for `malformed_packet_handling`: the unknown event byte 6
and a Start packet announcing one player with an empty order
payload. -/
theorem malformed_packet_handling_witness :
    receivePacket [0] initialState [1] [6, 7] =
        RecvResult.dropped true initialState
    ∧ receivePacket [0] initialState [1] [0, 1] =
        RecvResult.dropped true initialState
    ∧ receivePacket [0] initialState [1] [3, 1] =
        RecvResult.dropped true (resetGameState initialState) :=
  malformed_packet_handling [0] [1] initialState 6 [7] (by decide) 1 []
    (by decide)

/-- C10 counterexample: with 2 players and a loaded deck of exactly
`5*2+2 = 12` cards, the second seat's hand is sliced from the front
of the deck but the dealing draw of 10 cards empties the back,
leaving only the first two cards: the hand card `decodedCard 5` is
not in the remaining deck. -/
theorem dealt_hand_removed_from_deck :
    (initGameStart [1] st12).map GameState.main_player =
      some ((st12.deck.drop 5).take 5)
    ∧ decodedCard 5 ∈ (st12.deck.drop 5).take 5
    ∧ (Deck.draw 10 st12.deck).2 = [decodedCard 0, decodedCard 1]
    ∧ decodedCard 5 ∉ (Deck.draw 10 st12.deck).2 := by
  decide

/-- C10 (amended): when game start deals hands with `p` players and a
loaded deck of at least `10*p` cards, the local player's 5-card hand
is copied from the front of the deck (the window at 5 times its seat
index) while the dealing draw of `5*p` cards removes cards from the
back (the draw end), so every card placed in the local hand is still
present in the deck remaining after the dealing draw. -/
theorem hand_dealt_from_front (own : PeerId) (s : GameState) (p : Nat)
    (hp : s.game_info.order.length = p)
    (hown : own ∈ s.game_info.order)
    (hlen : 10 * p ≤ s.deck.length) :
    ∃ pos s',
      s.game_info.order.findIdx? (· == own) = some pos
      ∧ initGameStart own s = some s'
      ∧ s'.main_player = (s.deck.drop (pos * 5)).take 5
      ∧ (Deck.draw (5 * p) s.deck).2 = s.deck.take (s.deck.length - 5 * p)
      ∧ ∀ c ∈ s'.main_player, c ∈ (Deck.draw (5 * p) s.deck).2 := by
  have hsome : (s.game_info.order.findIdx? (· == own)).isSome := by
    rw [List.findIdx?_isSome]
    exact List.any_eq_true.mpr ⟨own, hown, by simp⟩
  obtain ⟨pos, hpos⟩ := Option.isSome_iff_exists.mp hsome
  have hposlt : pos < p := by
    have h2 := (List.findIdx?_eq_some_iff_findIdx_eq.mp hpos).1
    omega
  have hp1 : 1 ≤ p := by
    have hne := List.ne_nil_of_mem hown
    have := List.length_pos.mpr hne
    omega
  have hguard : (pos + 1) * 5 ≤ s.deck.length := by nlinarith
  have hdeal : (Deck.draw (5 * s.game_info.order.length) s.deck).2 =
      s.deck.take (s.deck.length - 5 * p) := by
    rw [Deck.draw_eq, hp]
  have hdeal' : (Deck.draw (5 * p) s.deck).2 =
      s.deck.take (s.deck.length - 5 * p) := by
    rw [Deck.draw_eq]
  have hXlen : (s.deck.take (s.deck.length - 5 * p)).length =
      s.deck.length - 5 * p := by
    simp
  have hXne : s.deck.take (s.deck.length - 5 * p) ≠ [] := by
    intro hnil
    rw [hnil] at hXlen
    simp at hXlen
    omega
  obtain ⟨c1, hc1⟩ := getLast?_of_ne_nil _ hXne
  have hmem : ∀ c ∈ (s.deck.drop (pos * 5)).take 5,
      c ∈ (Deck.draw (5 * p) s.deck).2 := by
    intro c hc
    rw [Deck.draw_eq]
    exact mem_take_of_mem_drop_take (by omega) hc
  refine ⟨pos, ?_⟩
  simp only [initGameStart, hpos, hguard, if_true, hdeal, draw_one_head, hc1]
  by_cases hcol : c1.color = CardColor.Wild
  · have hY : (Deck.draw 1 (List.take (s.deck.length - 5 * p) s.deck)).2 =
        (List.take (s.deck.length - 5 * p) s.deck).take
          (s.deck.length - 5 * p - 1) := by
      rw [Deck.draw_eq, hXlen]
    have hYne : (List.take (s.deck.length - 5 * p) s.deck).take
        (s.deck.length - 5 * p - 1) ≠ [] := by
      intro hnil
      have := congrArg List.length hnil
      simp at this
      omega
    obtain ⟨c2, hc2⟩ := getLast?_of_ne_nil _ hYne
    simp only [hcol, hY, hc2, beq_self_eq_true, if_true]
    exact ⟨_, trivial, rfl, rfl, hdeal', hmem⟩
  · simp only [beq_eq_false_iff_ne.mpr hcol, Bool.false_eq_true, if_false]
    exact ⟨_, trivial, rfl, rfl, hdeal', hmem⟩

/-- Witness for `hand_dealt_from_front`: both seats of the concrete
12-card state satisfy the amended bound once the deck is grown to 20
cards; here the first seat with the identity 20-card deck. -/
theorem hand_dealt_from_front_witness :
    ∃ pos s',
      ([[0], [1]] : List PeerId).findIdx? (· == ([0] : PeerId)) = some pos
      ∧ initGameStart [0]
          { initialState with
            game_info := ⟨some [0], [[0], [1]], Direction.Clockwise⟩
            deck := (List.range 20).map decodedCard } = some s'
      ∧ s'.main_player =
          ((((List.range 20).map decodedCard)).drop (pos * 5)).take 5
      ∧ (Deck.draw (5 * 2) ((List.range 20).map decodedCard)).2 =
          ((List.range 20).map decodedCard).take
            (((List.range 20).map decodedCard).length - 5 * 2)
      ∧ ∀ c ∈ s'.main_player,
          c ∈ (Deck.draw (5 * 2) ((List.range 20).map decodedCard)).2 :=
  hand_dealt_from_front [0]
    { initialState with
      game_info := ⟨some [0], [[0], [1]], Direction.Clockwise⟩
      deck := (List.range 20).map decodedCard }
    2 (by decide) (by decide) (by decide)

set_option maxRecDepth 8000 in
/-- C2 counterexample: on the identity 108-card order the applied
Start packet puts the card decoded from byte 97 (the 98th card, a
Blue Six) on top of the discard pile, not the 11th card of the order
(byte 10, a Red Skip): hands are sliced off the deck front but the
flip draws come off the deck's back. -/
theorem top_discard_is_98th_not_11th :
    (match receivePacket (List.replicate 16 0) initialState [2]
        startPacket108 with
      | RecvResult.ok s1 => some (s1.discard_pile, s1.main_player)
      | _ => none) =
      some ([⟨CardColor.Blue, CardValue.Six, 2⟩],
        ((List.range 108).map decodedCard).take 5)
    ∧ decodedCard 10 = ⟨CardColor.Red, CardValue.Skip, 1⟩
    ∧ (⟨CardColor.Blue, CardValue.Six, 2⟩ : Card) ≠
        ⟨CardColor.Red, CardValue.Skip, 1⟩ := by
  decide

/-- C2 (amended): for a Start packet with seat order `[P1,P2]` and a
full 108-byte shuffled deck order, each peer's hand is its 5-card
slice of the decoded order by seat index (P1 the cards at indices
0..4, P2 the next 5); the top discard card is the card at index 97
(the 98th, drawn from the deck's back) unless it decodes to a Wild,
in which case the wild at index 97 is discarded and the card at index
96 is flipped on top of it (top of discard = last element, so the
96th-index card ends on top); and after P1 subsequently plays a DrawTwo,
P2's tracked card_count rises by exactly 2 (from 5 to 7) and the turn
lands on P2 — the player made to draw — not back on P1. -/
theorem game_start_scenario (p1 p2 host : PeerId) (s : GameState)
    (deckBytes : List Nat)
    (h1 : p1.length = 16) (h2 : p2.length = 16) (hne : p1 ≠ p2)
    (hdisc : s.discard_pile = [])
    (hdir : s.game_info.direction = Direction.Clockwise)
    (hlen : deckBytes.length = 108) :
    (∃ s1, receivePacket p1 s host (0 :: 2 :: (p1 ++ (p2 ++ deckBytes))) =
        RecvResult.ok s1
      ∧ s1.main_player = (deckBytes.map decodedCard).take 5
      ∧ s1.game_info.order = [p1, p2]
      ∧ s1.game_info.current_player = some p1
      ∧ lookupCount s1.opponents p2 = some 5
      ∧ (∀ c, (deckBytes.map decodedCard)[97]? = some c →
          c.color ≠ CardColor.Wild → s1.discard_pile = [c])
      ∧ (∀ c c', (deckBytes.map decodedCard)[97]? = some c →
          c.color = CardColor.Wild →
          (deckBytes.map decodedCard)[96]? = some c' →
          s1.discard_pile = [c, c'])
      ∧ (∀ card : Card, card.value = CardValue.DrawTwo →
          ∃ s2, handlePlayCard p1 card s1 = some s2
            ∧ lookupCount s2.opponents p2 = some 7
            ∧ s2.game_info.current_player = some p2
            ∧ some p2 ≠ some p1))
    ∧ (∃ s1, receivePacket p2 s host (0 :: 2 :: (p1 ++ (p2 ++ deckBytes))) =
        RecvResult.ok s1
      ∧ s1.main_player = ((deckBytes.map decodedCard).drop 5).take 5) := by
  have hb12 : (p1 == p2) = false := beq_eq_false_iff_ne.mpr hne
  have hb21 : (p2 == p1) = false := beq_eq_false_iff_ne.mpr (Ne.symm hne)
  have hmaplen : (deckBytes.map decodedCard).length = 108 := by
    simp [hlen]
  constructor
  · rw [receive_start_eq p1 host p1 p2 s deckBytes h1 h2]
    obtain ⟨s1, hinit, hmain, hgieq, hopp, hwins, hnw, hw⟩ :=
      initGameStart_two_seats p1
        { s with
          opponents := ([p1, p2].filter fun pid => pid != p1).map fun pid =>
            ⟨pid, (lookupName s.peer_names pid).getD unknownName, 5⟩
          game_info := { s.game_info with
            order := [p1, p2]
            current_player := some p1 }
          deck := deckBytes.map decodedCard }
        0 (by simp) (by simp) (by simpa using hmaplen) (by omega)
    rw [hinit]
    have hmain5 : s1.main_player = (deckBytes.map decodedCard).take 5 := by
      simpa using hmain
    have hmpne : s1.main_player.isEmpty = false := by
      have hl5 : s1.main_player.length = 5 := by
        rw [hmain5]
        simp [hmaplen]
      cases hd : s1.main_player with
      | nil => rw [hd] at hl5; simp at hl5
      | cons a t => rfl
    have hbne : (p2 != p1) = true := by simp [bne, hb21]
    have hoppeq : s1.opponents =
        [⟨p2, (lookupName s.peer_names p2).getD unknownName, 5⟩] := by
      rw [hopp]
      simp [List.filter, bne_self_eq_false, hbne]
    refine ⟨s1, rfl, hmain5, by rw [hgieq], by rw [hgieq], ?_, ?_, ?_, ?_⟩
    · rw [hoppeq]
      simp [lookupCount]
    · intro c hc hcol
      have := (hnw c hc hcol).1
      simpa [hdisc] using this
    · intro c c' hc hcol hc'
      have := (hw c c' hc hcol hc').1
      simpa [hdisc] using this
    · intro card hval
      obtain ⟨s2, hplay, hopp2, hcur2⟩ :=
        handlePlayCard_drawtwo p1 p2 card s1 hval hne
          (by rw [hgieq]) (by rw [hgieq]) (by rw [hgieq]; exact hdir) hmpne
      refine ⟨s2, hplay, ?_, hcur2, fun h => hne (Option.some.inj h).symm⟩
      rw [hopp2, lookupCount_incCardCount, hoppeq]
      simp [lookupCount]
  · rw [receive_start_eq p2 host p1 p2 s deckBytes h1 h2]
    obtain ⟨s1, hinit, hmain, hgieq, hopp, hwins, hnw, hw⟩ :=
      initGameStart_two_seats p2
        { s with
          opponents := ([p1, p2].filter fun pid => pid != p2).map fun pid =>
            ⟨pid, (lookupName s.peer_names pid).getD unknownName, 5⟩
          game_info := { s.game_info with
            order := [p1, p2]
            current_player := some p1 }
          deck := deckBytes.map decodedCard }
        1 (by simp [List.findIdx?_cons, hb12]) (by simp)
        (by simpa using hmaplen) (by omega)
    rw [hinit]
    exact ⟨s1, rfl, by simpa using hmain⟩

/-- Witness for `game_start_scenario`: the second seat of the
concrete identity-order packet receives the cards decoded from bytes
5..9. -/
theorem game_start_scenario_witness :
    ∃ s1, receivePacket (List.replicate 16 1) initialState [2]
        (0 :: 2 :: (List.replicate 16 0 ++
          (List.replicate 16 1 ++ List.range 108))) = RecvResult.ok s1
      ∧ s1.main_player =
          (((List.range 108).map decodedCard).drop 5).take 5 :=
  (game_start_scenario (List.replicate 16 0) (List.replicate 16 1) [2]
    initialState (List.range 108) (by decide) (by decide) (by decide)
    rfl rfl (by decide)).2

end CrazySevens
